import Mathlib

/-!
Verification development for the manifest-driven task dependency engine and
task execution scheduler of the yanghoo media pipeline.

The definitions below are a shallow embedding of the TypeScript sources:
  * `src/types/manifest.ts`   — the data model (states, `FileItem`, `Task`, `Manifest`)
  * `src/task_dependencies.ts`— the dependency rule table and evaluator
  * the task runner           — `executeWorker` and its helpers
  * `src/updateLibrary.ts`    — `calculateDiskSize`
  * `workers/resource-manager/index.ts` — `purgeContent`

JavaScript idioms are translated explicitly: `x || d` on strings becomes
`jsOrStr` (empty string is falsy), `x || d` on numbers becomes `jsOrInt`
(zero is falsy), optional chaining `a?.b === v` becomes an `Option` check,
timestamps (`new Date().toISOString()`) become an explicit `now : String`
parameter, and filesystem / `JSON.parse` builtins become oracle parameters.
-/

namespace Yanghoo

/-- Embedding of `FileItemStateEnum` from `src/types/manifest.ts`. -/
inductive FileState where
  | queued
  | processing
  | ready
  | error
  | purged
deriving DecidableEq, Repr

/-- Embedding of `TaskStateEnum` from `src/types/manifest.ts`. -/
inductive TaskState where
  | queued
  | running
  | done
  | error
deriving DecidableEq, Repr

/-- `dimensions` object of the original-media metadata. -/
structure Dimensions where
  width : Int
  height : Int
deriving DecidableEq, Repr

/-- The free-form per-artifact `metadata` blob, restricted to the fields the
verified code actually reads or writes.  A missing field is `none`
(JavaScript `undefined`). -/
structure Metadata where
  quality : Option String := none
  mediaType : Option String := none
  duration : Option Int := none
  dimensions : Option Dimensions := none
  diskSize : Option Int := none
  purgedAt : Option String := none
  purgedReason : Option String := none
  hasOriginalMedia : Option Bool := none
deriving DecidableEq, Repr

/-- The free-form task `context` blob, restricted to the fields the verified
code reads or writes. -/
structure Context where
  quality : Option String := none
  model : Option String := none
  sourcePath : Option String := none
  keepResults : Option Bool := none
  keepThumbnail : Option Bool := none
  reason : Option String := none
deriving DecidableEq, Repr

/-- Embedding of `FileItem` from `src/types/manifest.ts`.
`metadata : Option Metadata` models the JSON value `null` as `none`. -/
structure FileItem where
  type : String
  version : Int
  path : String
  state : FileState
  generatedBy : String
  derivedFrom : List String
  metadata : Option Metadata
deriving DecidableEq, Repr

/-- Embedding of `Task` from `src/types/manifest.ts`. -/
structure Task where
  id : String
  title : String
  state : TaskState
  percent : Int
  relatedOutput : String
  startedAt : Option String
  updatedAt : Option String
  error : Option String
  context : Option Context
deriving DecidableEq, Repr

/-- The manifest-level `metadata` record (`z.record(z.any())`), restricted to
the keys the verified code reads. -/
structure ManifestMetadata where
  sourceUrl : Option String := none
  preferredQuality : Option String := none
  whisperxModel : Option String := none
deriving DecidableEq, Repr

/-- Embedding of `Manifest` from `src/types/manifest.ts`. -/
structure Manifest where
  id : String
  hashId : String
  metadata : ManifestMetadata
  fileManifest : List FileItem
  tasks : List Task
  createdAt : String
  updatedAt : String
  schemaVersion : String
deriving DecidableEq, Repr

/-- JavaScript `s || d` for strings: the empty string is falsy.  An absent
(`none`) value is `undefined`, also falsy. -/
def jsOrStr : Option String → String → String
  | some s, d => if s == "" then d else s
  | none, d => d

/-- JavaScript `n || d` for numbers: `0` is falsy. -/
def jsOrInt : Option Int → Int → Int
  | some n, d => if n == 0 then d else n
  | none, d => d

/-- `list.find(f => f.type === ty)?.<...>` check on an artifact list. -/
def fileCheck (fm : List FileItem) (ty : String) (p : FileItem → Bool) : Bool :=
  (fm.find? fun f => f.type == ty).any p

/-- `list.find(t => t.id === i)?.<...>` check on a task list. -/
def taskCheck (ts : List Task) (i : String) (p : Task → Bool) : Bool :=
  (ts.find? fun tk => tk.id == i).any p

/-- `manifest.tasks.some(task => task.id === i)`. -/
def hasTaskId (ts : List Task) (i : String) : Bool :=
  ts.any fun tk => tk.id == i

/-- The fields of `Partial<Task>` produced by each rule's `createTask`
(every rule in the table supplies exactly these fields). -/
structure TaskDraft where
  id : String
  title : String
  state : TaskState
  percent : Int
  relatedOutput : String
  context : Option Context

/-- Embedding of the `TaskDependency` interface from `src/task_dependencies.ts`. -/
structure TaskDependency where
  id : String
  title : String
  triggerCondition : Manifest → Bool
  relatedOutput : String
  createTask : Manifest → TaskDraft

/-- Embedding of the `TASK_DEPENDENCIES` rule table from
`src/task_dependencies.ts`, in declared order. -/
def TASK_DEPENDENCIES : List TaskDependency := [
  -- 1. After fetch_info_json is done, trigger download_media
  { id := "download_media", title := "Download media",
    triggerCondition := fun m =>
      taskCheck m.tasks "fetch_info_json" (fun tk => tk.state == TaskState.done) &&
      fileCheck m.fileManifest "info_json" (fun f => f.state == FileState.ready) &&
      !(hasTaskId m.tasks "download_media"),
    relatedOutput := "original_media",
    createTask := fun m =>
      let quality := jsOrStr m.metadata.preferredQuality "best"
      { id := "download_media", title := "Download media (" ++ quality ++ ")",
        state := TaskState.queued, percent := 0,
        relatedOutput := "original_media",
        context := some { quality := some quality } } },
  -- 2. After original_media is ready, trigger extract_audio
  { id := "extract_audio", title := "Extract audio",
    triggerCondition := fun m =>
      fileCheck m.fileManifest "original_media" (fun f => f.state == FileState.ready) &&
      fileCheck m.fileManifest "original_media"
        (fun f => (f.metadata.bind fun md => md.mediaType) == some "local") &&
      !(hasTaskId m.tasks "extract_audio"),
    relatedOutput := "extracted_audio",
    createTask := fun m =>
      let originalMedia := m.fileManifest.find? fun f => f.type == "original_media"
      { id := "extract_audio", title := "Extract audio",
        state := TaskState.queued, percent := 0,
        relatedOutput := "extracted_audio",
        context := some { sourcePath := originalMedia.map fun f => f.path } } },
  -- 3. After extracted_audio is ready, trigger transcribe_whisperx
  { id := "transcribe_whisperx", title := "Transcribe audio with WhisperX",
    triggerCondition := fun m =>
      fileCheck m.fileManifest "extracted_audio" (fun f => f.state == FileState.ready) &&
      !(hasTaskId m.tasks "transcribe_whisperx"),
    relatedOutput := "transcript_whisperx_json",
    createTask := fun m =>
      let model := jsOrStr m.metadata.whisperxModel "medium.en"
      { id := "transcribe_whisperx",
        title := "Transcribe audio with WhisperX (" ++ model ++ ")",
        state := TaskState.queued, percent := 0,
        relatedOutput := "transcript_whisperx_json",
        context := some { model := some model } } },
  -- 4. After both language VTTs are ready, trigger merge_transcripts
  { id := "merge_transcripts", title := "Merge transcripts",
    triggerCondition := fun m =>
      fileCheck m.fileManifest "transcript_en_vtt" (fun f => f.state == FileState.ready) &&
      fileCheck m.fileManifest "transcript_zh_vtt" (fun f => f.state == FileState.ready) &&
      !(hasTaskId m.tasks "merge_transcripts"),
    relatedOutput := "transcript_merged_vtt",
    createTask := fun _ =>
      { id := "merge_transcripts", title := "Merge English and Chinese transcripts",
        state := TaskState.queued, percent := 0,
        relatedOutput := "transcript_merged_vtt", context := none } },
  -- 5. After merged transcript is ready, trigger extract_text
  { id := "extract_text", title := "Extract text content",
    triggerCondition := fun m =>
      fileCheck m.fileManifest "transcript_merged_vtt" (fun f => f.state == FileState.ready) &&
      !(hasTaskId m.tasks "extract_text"),
    relatedOutput := "text_content_md",
    createTask := fun _ =>
      { id := "extract_text", title := "Convert transcript to markdown",
        state := TaskState.queued, percent := 0,
        relatedOutput := "text_content_md", context := none } },
  -- 6. After text content is ready, trigger generate_rich_summary
  { id := "generate_rich_summary", title := "Generate rich summary",
    triggerCondition := fun m =>
      fileCheck m.fileManifest "text_content_md" (fun f => f.state == FileState.ready) &&
      !(hasTaskId m.tasks "generate_rich_summary"),
    relatedOutput := "summary_rich_json",
    createTask := fun _ =>
      { id := "generate_rich_summary", title := "Generate AI summary",
        state := TaskState.queued, percent := 0,
        relatedOutput := "summary_rich_json", context := none } },
  -- 7. After rich summary is ready, trigger extract_topics
  { id := "extract_topics", title := "Extract topic tags",
    triggerCondition := fun m =>
      fileCheck m.fileManifest "summary_rich_json" (fun f => f.state == FileState.ready) &&
      !(hasTaskId m.tasks "extract_topics"),
    relatedOutput := "topic_tags_json",
    createTask := fun _ =>
      { id := "extract_topics", title := "Extract topic tags from summary",
        state := TaskState.queued, percent := 0,
        relatedOutput := "topic_tags_json", context := none } },
  -- 8. After summary_md is ready, trigger generate_speech_summary
  { id := "generate_speech_summary", title := "Generate speech summary",
    triggerCondition := fun m =>
      fileCheck m.fileManifest "summary_md" (fun f => f.state == FileState.ready) &&
      !(hasTaskId m.tasks "generate_speech_summary"),
    relatedOutput := "speech_summary_audio",
    createTask := fun _ =>
      { id := "generate_speech_summary", title := "Generate speech summary",
        state := TaskState.queued, percent := 0,
        relatedOutput := "speech_summary_audio", context := none } },
  -- 9. After text_content_md is ready, trigger initialize_text_chat
  { id := "initialize_text_chat", title := "Initialize text chat",
    triggerCondition := fun m =>
      fileCheck m.fileManifest "text_content_md" (fun f => f.state == FileState.ready) &&
      !(hasTaskId m.tasks "initialize_text_chat"),
    relatedOutput := "text_chat_history_json",
    createTask := fun _ =>
      { id := "initialize_text_chat", title := "Initialize AI text chat",
        state := TaskState.queued, percent := 0,
        relatedOutput := "text_chat_history_json",
        context := some { model := some "deepseek-chat" } } }
]

/-- `getDefaultPathForFileType` from `src/task_dependencies.ts`. -/
def getDefaultPathForFileType (fileType : String) : String :=
  match fileType with
  | "original_media" => "original/media.mp4"
  | "original_thumbnail" => "original/thumbnail.jpg"
  | "info_json" => "original/info.json"
  | "transcript_en_vtt" => "transcripts/en.vtt"
  | "transcript_zh_vtt" => "transcripts/zh.vtt"
  | "transcript_whisperx_json" => "transcripts/whisperx/transcript.json"
  | "transcript_merged_vtt" => "transcripts/merged.vtt"
  | "text_content_md" => "transcripts/content.md"
  | "summary_rich_json" => "summaries/rich_summary.json"
  | "summary_md" => "summaries/summary.md"
  | "extracted_audio" => "audio/audio.wav"
  | "speech_summary_audio" => "audio/summary.mp3"
  | "topic_tags_json" => "metadata/topics.json"
  | "text_chat_history_json" => "chats/text_chat.json"
  | "image_chat_history_json" => "chats/image_chat.json"
  | "chat_collection_json" => "chats/collection.json"
  | "screenshot_collection_json" => "screenshots/collection.json"
  | "article_md" => "notes/article.md"
  | _ => fileType ++ ".data"

/-- `getDependencyToolName` from `src/task_dependencies.ts`. -/
def getDependencyToolName (taskId : String) : String :=
  match taskId with
  | "download_media" => "yt-dlp@2024.12.04"
  | "upgrade_media_quality" => "yt-dlp@2024.12.04"
  | "extract_audio" => "ffmpeg@6.1"
  | "transcribe_whisperx" => "whisperx@1.0.0"
  | "merge_transcripts" => "merge-vtt@1.0.0"
  | "extract_text" => "vtt-to-md@1.0.0"
  | "generate_rich_summary" => "ai-summary@1.0.0"
  | "extract_topics" => "topic-extractor@1.0.0"
  | "generate_speech_summary" => "tts@1.0.0"
  | "initialize_text_chat" => "text-chat@1.0.0"
  | _ => "unknown@1.0.0"

/-- `getPathForType` from `src/task_dependencies.ts`: the artifact's path, or
the default path for the type (note `file?.path || default`: an empty stored
path also falls back). -/
def getPathForType (m : Manifest) (fileType : String) : String :=
  jsOrStr ((m.fileManifest.find? fun f => f.type == fileType).map fun f => f.path)
    (getDefaultPathForFileType fileType)

/-- `getDerivedFrom` from `src/task_dependencies.ts`. -/
def getDerivedFrom (taskId : String) (m : Manifest) : List String :=
  match taskId with
  | "extract_audio" => [getPathForType m "original_media"]
  | "transcribe_whisperx" => [getPathForType m "extracted_audio"]
  | "merge_transcripts" =>
      [getPathForType m "transcript_en_vtt", getPathForType m "transcript_zh_vtt"]
  | "extract_text" => [getPathForType m "transcript_merged_vtt"]
  | "generate_rich_summary" => [getPathForType m "text_content_md"]
  | "extract_topics" => [getPathForType m "summary_rich_json"]
  | "generate_speech_summary" => [getPathForType m "summary_md"]
  | "initialize_text_chat" => [getPathForType m "text_content_md"]
  | _ => []

/-- The complete `Task` record the evaluator builds from a rule's draft:
`baseTask.<field> || <default>` merging from the source.  The enum default
`baseTask.state || queued` is the draft's state verbatim since enum values
are nonempty strings (always truthy). -/
def mkNewTask (dep : TaskDependency) (cur : Manifest) : Task :=
  let baseTask := dep.createTask cur
  { id := jsOrStr (some baseTask.id) dep.id,
    title := jsOrStr (some baseTask.title) dep.title,
    state := baseTask.state,
    percent := jsOrInt (some baseTask.percent) 0,
    relatedOutput := jsOrStr (some baseTask.relatedOutput) dep.relatedOutput,
    startedAt := none, updatedAt := none, error := none,
    context := baseTask.context }

/-- The placeholder artifact (`state: queued`) the evaluator pushes for a
fired rule whose output type is not in the artifact list yet. -/
def mkPlaceholder (dep : TaskDependency) (cur : Manifest) (ro : String) : FileItem :=
  { type := ro,
    version := 1,
    path := getDefaultPathForFileType ro,
    state := FileState.queued,
    generatedBy := getDependencyToolName dep.id,
    derivedFrom := getDerivedFrom dep.id cur,
    metadata := none }

/-- One iteration of the rule loop inside `findTasksToTrigger`.  The source
mutates `manifest.fileManifest` in place while the original `manifest.tasks`
stays fixed, so the state threaded through the loop is the accumulated new
tasks plus the current artifact list; each rule sees the manifest with the
artifact list as mutated so far. -/
def ftStep (m : Manifest) (st : List Task × List FileItem) (dep : TaskDependency) :
    List Task × List FileItem :=
  let cur : Manifest := { m with fileManifest := st.snd }
  if dep.triggerCondition cur then
    let newTask := mkNewTask dep cur
    let fm' :=
      if st.snd.any fun f => f.type == newTask.relatedOutput then st.snd
      else st.snd ++ [mkPlaceholder dep cur newTask.relatedOutput]
    (st.fst ++ [newTask], fm')
  else
    st

/-- `findTasksToTrigger` from `src/task_dependencies.ts`.  Returns the list of
newly created tasks together with the artifact list after the in-place
placeholder pushes. -/
def findTasksToTrigger (m : Manifest) : List Task × List FileItem :=
  TASK_DEPENDENCIES.foldl (ftStep m) ([], m.fileManifest)

/-- `updateTaskDependencies` from `src/task_dependencies.ts`.  When no rule
fires the manifest object is returned unchanged (its artifact list was not
touched); otherwise the new tasks are appended and `updatedAt` is stamped. -/
def updateTaskDependencies (m : Manifest) (now : String) : Manifest :=
  let r := findTasksToTrigger m
  if r.fst.isEmpty then { m with fileManifest := r.snd }
  else { m with fileManifest := r.snd, tasks := m.tasks ++ r.fst, updatedAt := now }

/-! ## The task runner (`executeWorker` and helpers) -/

/-- The `Partial<Task>` update records passed to the runner's `updateTask`.
An outer `none` means the field is absent from the update object; for the
nullable fields `startedAt`/`error` the inner `Option` is the stored value. -/
structure TaskUpdates where
  state : Option TaskState := none
  percent : Option Int := none
  startedAt : Option (Option String) := none
  error : Option (Option String) := none

/-- `{ ...task, ...updates, updatedAt: timestamp }` from the runner's
`updateTask`. -/
def applyUpdates (tk : Task) (u : TaskUpdates) (now : String) : Task :=
  { tk with
    state := u.state.getD tk.state,
    percent := u.percent.getD tk.percent,
    startedAt := u.startedAt.getD tk.startedAt,
    error := u.error.getD tk.error,
    updatedAt := some now }

/-- `updateTask` from the task runner: map the update over every task with the
given id, and, when `fileItemUpdates` is supplied, set the state of every
artifact of the given type (every call site's `fileItemUpdates.updates` is a
single `state` field). -/
def updateTask (m : Manifest) (taskId : String) (u : TaskUpdates)
    (fileItemUpdates : Option (String × FileState)) (now : String) : Manifest :=
  let tasks' := m.tasks.map fun tk =>
    if tk.id == taskId then applyUpdates tk u now else tk
  let fm' :=
    match fileItemUpdates with
    | some (ty, st) => m.fileManifest.map fun f =>
        if f.type == ty then { f with state := st } else f
    | none => m.fileManifest
  { m with tasks := tasks', fileManifest := fm' }

/-- A `TASK_WORKER_MAP` entry: command plus argument builder. -/
structure WorkerConfig where
  command : String
  args : Task → String → List String

/-- `TASK_WORKER_MAP` from the task runner, as an association list in
declared order. -/
def TASK_WORKER_MAP : List (String × WorkerConfig) := [
  ("fetch_info_json",
    { command := "python3",
      args := fun _ hashId => ["workers/yt-dlp/fetch_info.py", hashId] }),
  ("download_media",
    { command := "python3",
      args := fun task hashId =>
        let quality := jsOrStr (task.context.bind fun c => c.quality) "best"
        ["workers/yt-dlp/download_media.py", hashId, "--quality", quality] }),
  ("extract_audio",
    { command := "ts-node",
      args := fun _ hashId => ["workers/extract-audio/index.ts", hashId] }),
  ("transcribe_whisperx",
    { command := "python3",
      args := fun task hashId =>
        let model := jsOrStr (task.context.bind fun c => c.model) "medium.en"
        ["workers/whisperx/transcribe.py", hashId, "--model", model] }),
  ("merge_transcripts",
    { command := "ts-node",
      args := fun _ hashId => ["workers/merge-vtt/index.ts", hashId] }),
  ("extract_text",
    { command := "ts-node",
      args := fun _ hashId => ["workers/vtt-to-md/index.ts", hashId] }),
  ("generate_rich_summary",
    { command := "ts-node",
      args := fun _ hashId => ["workers/ai-summary/index.ts", hashId] }),
  ("extract_topics",
    { command := "ts-node",
      args := fun _ hashId => ["workers/topic-extractor/index.ts", hashId] }),
  ("initialize_text_chat",
    { command := "ts-node",
      args := fun _ hashId => ["workers/text-chat/index.ts", hashId] })
]

/-- `TASK_WORKER_MAP[taskId]`. -/
def lookupWorker (taskId : String) : Option WorkerConfig :=
  (TASK_WORKER_MAP.find? fun e => e.fst == taskId).map fun e => e.snd

/-- The result of `JSON.parse` on a matched fragment, as seen by the runner's
progress scanner: `percent = some n` iff the parsed object has a `percent`
field of number type; `write` is the truthiness of its `write` field.
`JSON.parse` itself is a platform builtin and is passed to the runner as an
oracle `String → Option ProgressData` (`none` models a parse exception). -/
structure ProgressData where
  percent : Option Int
  write : Bool
deriving DecidableEq, Repr

/-- Splitting a chunk at newline characters.  The scanner's regex
`/({.*})/g` cannot match across a newline (`.` excludes it), so matching is
per line. -/
def splitLines : List Char → List (List Char)
  | [] => [[]]
  | c :: rest =>
    match splitLines rest with
    | [] => [[]]
    | l :: ls => if c == '\n' then [] :: l :: ls else (c :: l) :: ls

/-- The single match of the regex `{.*}` within one line: from the first `{`
to the last `}` after it (greedy `.*`); no match if no such pair exists.
After the greedy match no `}` remains, so a line yields at most one match. -/
def lineJsonMatch (cs : List Char) : Option (List Char) :=
  match cs.findIdx? (fun c => c == '{') with
  | none => none
  | some i =>
    match cs.reverse.findIdx? (fun c => c == '}') with
    | none => none
    | some k =>
      let j := cs.length - 1 - k
      if i < j then some ((cs.drop i).take (j - i + 1)) else none

/-- `chunk.match(/({.*})/g)` from the runner's stdout scanner: the list of
brace-delimited fragments, one per line that has one. -/
def extractJsonMatches (chunk : String) : List String :=
  (splitLines chunk.toList).filterMap fun l => (lineJsonMatch l).map fun cs => String.mk cs

/-- The loop over a chunk's regex matches inside the stdout handler.  A parse
exception (oracle `none`) is caught by the `try` wrapping the whole loop, so
it abandons the remaining matches of that chunk; a parsed object without a
numeric `percent` is skipped.  A numeric `percent` updates the task, and the
document is persisted when the percent is a multiple of 10 or the object has
a truthy `write` field. -/
def applyMatches (jsonParse : String → Option ProgressData) (taskId : String) (now : String) :
    List String → Manifest × List Manifest → Manifest × List Manifest
  | [], st => st
  | s :: rest, (mf, ws) =>
    match jsonParse s with
    | none => (mf, ws)
    | some progressData =>
      match progressData.percent with
      | none => applyMatches jsonParse taskId now rest (mf, ws)
      | some n =>
        let mf' := updateTask mf taskId { percent := some n } none now
        let ws' := if n % 10 == 0 || progressData.write then ws ++ [mf'] else ws
        applyMatches jsonParse taskId now rest (mf', ws')

/-- One `stdout.on('data')` event: scan the chunk for JSON fragments and
process them. -/
def applyChunk (jsonParse : String → Option ProgressData) (taskId : String) (now : String)
    (st : Manifest × List Manifest) (chunk : String) : Manifest × List Manifest :=
  applyMatches jsonParse taskId now (extractJsonMatches chunk) st

/-- The externally observable behaviour of the worker subprocess: either the
`error` event fired (spawn failure) or the process ran and the `close` event
delivered an exit code, after the given stdout and stderr chunks. -/
inductive WorkerOutcome where
  | spawnError (msg : String)
  | exited (code : Int) (stdoutChunks : List String) (stderrChunks : List String)

/-- The observable effect of one `executeWorker` run: the manifest finally in
memory, the sequence of `writeManifest` calls, whether
`updateTaskDependencies` was re-run, whether a subprocess was spawned, and
whether the returned promise resolved (`true`) or rejected (`false`). -/
structure ExecResult where
  final : Manifest
  writes : List Manifest
  depsReRun : Bool
  spawned : Bool
  resolved : Bool

/-- `executeWorker` from the task runner, with the subprocess behaviour and
`JSON.parse` supplied as oracles and timestamps as `now`. -/
def executeWorker (m : Manifest) (t : Task) (outcome : WorkerOutcome)
    (jsonParse : String → Option ProgressData) (now : String) : ExecResult :=
  let taskId := t.id
  -- `relatedOutput ? { type, updates } : undefined` (empty string is falsy)
  let fu : FileState → Option (String × FileState) := fun st =>
    if t.relatedOutput == "" then none else some (t.relatedOutput, st)
  match lookupWorker taskId with
  | none =>
    let m1 := updateTask m taskId
      { state := some TaskState.error,
        error := some (some ("No worker configuration found for task " ++ taskId)) }
      none now
    { final := m1, writes := [m1], depsReRun := false, spawned := false, resolved := true }
  | some _ =>
    let m1 := updateTask m taskId
      { state := some TaskState.running, startedAt := some (some now), percent := some 0 }
      (fu FileState.processing) now
    match outcome with
    | WorkerOutcome.spawnError msg =>
      let m2 := updateTask m1 taskId
        { state := some TaskState.error, error := some (some msg) }
        (fu FileState.error) now
      { final := m2, writes := [m1, m2], depsReRun := false, spawned := true,
        resolved := false }
    | WorkerOutcome.exited code stdoutChunks stderrChunks =>
      let pr := stdoutChunks.foldl (applyChunk jsonParse taskId now) (m1, [])
      let stderrBuffer := String.join stderrChunks
      let m3 :=
        if code == 0 then
          updateTask pr.fst taskId
            { state := some TaskState.done, percent := some 100, error := some none }
            (fu FileState.ready) now
        else
          updateTask pr.fst taskId
            { state := some TaskState.error,
              error := some (some (jsOrStr (some stderrBuffer)
                ("Worker exited with code " ++ toString code))) }
            (fu FileState.error) now
      let m4 := if code == 0 then updateTaskDependencies m3 now else m3
      { final := m4, writes := [m1] ++ pr.snd ++ [m4], depsReRun := code == 0,
        spawned := true, resolved := code == 0 }

/-! ## The library index rebuilder (`calculateDiskSize`) -/

/-- `calculateDiskSize` from `src/updateLibrary.ts`.  The filesystem is an
oracle `stat : hashId → relative path → Option Int` combining
`fs.existsSync` and `fs.statSync(...).size`; `none` covers both a missing
file and a stat error (both are silently skipped by the source). -/
def calculateDiskSize (fileManifest : List FileItem) (hashId : String)
    (stat : String → String → Option Int) : Int :=
  fileManifest.foldl
    (fun totalSize file =>
      match file.metadata.bind fun md => md.diskSize with
      | some n => totalSize + n
      | none =>
        if file.state == FileState.ready && !(file.path == "") then
          match stat hashId file.path with
          | some sz => totalSize + sz
          | none => totalSize
        else totalSize)
    0

/-! ## The resource manager (`purgeContent`) -/

/-- The purge options from `workers/resource-manager/index.ts`. -/
structure PurgeOptions where
  keepResults : Bool
  keepThumbnail : Bool
  reason : String
deriving DecidableEq, Repr

/-- Mutate the first list element satisfying `p` (the JavaScript pattern of
`find` followed by in-place mutation of the found object). -/
def updateFirst (p : α → Bool) (g : α → α) : List α → List α
  | [] => []
  | x :: xs => if p x then g x :: xs else x :: updateFirst p g xs

/-- The empty metadata object (`{ ...null }` spreads to `{}`). -/
def emptyMetadata : Metadata := {}

/-- `purgeContent` from `workers/resource-manager/index.ts`, success path.
Filesystem presence of the media file and the thumbnail are oracles
(`fs.pathExists`); backup creation and file removal have no effect on the
manifest.  Returns `none` when no `original_media` artifact in state `ready`
exists (the source logs and returns `false`). -/
def purgeContent (m : Manifest) (options : PurgeOptions) (now : String)
    (mediaOnDisk thumbOnDisk : Bool) : Option Manifest :=
  match m.fileManifest.find? fun f =>
      f.type == "original_media" && f.state == FileState.ready with
  | none => none
  | some mediaFile =>
    let originalMetadata := mediaFile.metadata.getD emptyMetadata
    -- find-or-create the purge_media task; its net effect on completion is
    -- state done, percent 100, refreshed context and updatedAt
    let purgeContext : Context :=
      { keepResults := some options.keepResults,
        keepThumbnail := some options.keepThumbnail,
        reason := some options.reason }
    let tasks' :=
      if m.tasks.any fun tk => tk.id == "purge_media" then
        updateFirst (fun tk => tk.id == "purge_media")
          (fun tk =>
            { tk with
              state := TaskState.done,
              percent := 100,
              updatedAt := some now,
              context := some purgeContext })
          m.tasks
      else
        m.tasks ++ [{ id := "purge_media",
                      title := "删除原始媒体但保留处理结果",
                      state := TaskState.done, percent := 100,
                      startedAt := some now, updatedAt := some now,
                      relatedOutput := mediaFile.path,
                      error := none,
                      context := some purgeContext : Task }]
    -- thumbnail handling happens only inside the `pathExists(mediaPath)` block
    let fm1 :=
      if mediaOnDisk && !options.keepThumbnail && thumbOnDisk then
        updateFirst (fun f => f.type == "original_thumbnail")
          (fun f =>
            { f with
              state := FileState.purged,
              metadata := some
                { f.metadata.getD emptyMetadata with
                  purgedAt := some now,
                  purgedReason := some options.reason } })
          m.fileManifest
      else m.fileManifest
    -- the media record is marked purged unconditionally on the success path
    let purgedMeta : Metadata :=
      { quality := some (jsOrStr originalMetadata.quality "unknown"),
        mediaType := some (jsOrStr originalMetadata.mediaType "local"),
        duration := some (jsOrInt originalMetadata.duration 0),
        dimensions := some (originalMetadata.dimensions.getD { width := 0, height := 0 }),
        diskSize := some 0,
        purgedAt := some now,
        purgedReason := some options.reason,
        hasOriginalMedia := some false }
    let fm2 :=
      updateFirst (fun f => f.type == "original_media" && f.state == FileState.ready)
        (fun f => { f with state := FileState.purged, metadata := some purgedMeta })
        fm1
    -- the resource manager's saveManifest writes the document as-is (it does
    -- not stamp the manifest-level updatedAt)
    some { m with tasks := tasks', fileManifest := fm2 }

/-! ## Specification-side models

Definitions in this block follow the wording of spec sentences (they are not
translations of the source); each is compared against the corresponding
source-derived definition by a theorem below. -/

/-- The aggregate disk size as the examined claim states it: the sum, over
each artifact in state `ready`, of its recorded size, with a live stat
fallback when no cached size is present; artifacts not in state `ready`
contribute nothing. -/
def claimedDiskSize (fileManifest : List FileItem) (hashId : String)
    (stat : String → String → Option Int) : Int :=
  (fileManifest.map fun file =>
    if file.state == FileState.ready then
      match file.metadata.bind fun md => md.diskSize with
      | some n => n
      | none => (stat hashId file.path).getD 0
    else 0).sum

/-- Per-artifact contribution to the aggregate disk size as the code computes
it (amended claim): a cached numeric size counts regardless of the artifact's
state; without a cached size, only a `ready` artifact with a nonempty path
contributes, via a live stat (0 when the file is missing). -/
def artifactContribution (hashId : String) (stat : String → String → Option Int)
    (file : FileItem) : Int :=
  match file.metadata.bind fun md => md.diskSize with
  | some n => n
  | none =>
    if file.state == FileState.ready && !(file.path == "") then
      (stat hashId file.path).getD 0
    else 0

/-! ## Concrete fixtures for witnesses and counterexamples -/

/-- A queued `merge_transcripts` task. -/
def wMergeTask : Task :=
  { id := "merge_transcripts", title := "Merge transcripts",
    state := TaskState.queued, percent := 0,
    relatedOutput := "transcript_merged_vtt",
    startedAt := none, updatedAt := none, error := none, context := none }

/-- A document that already contains a `merge_transcripts` task. -/
def wManifest : Manifest :=
  { id := "m1", hashId := "h1", metadata := {},
    fileManifest := [], tasks := [wMergeTask],
    createdAt := "c", updatedAt := "u", schemaVersion := "0.3.5" }

/-- A queued `download_media` task (an id registered in `TASK_WORKER_MAP`). -/
def wDownloadTask : Task :=
  { id := "download_media", title := "Download media (best)",
    state := TaskState.queued, percent := 0,
    relatedOutput := "original_media",
    startedAt := none, updatedAt := none, error := none,
    context := some { quality := some "best" } }

/-- The artifact the download task produces, mid-pipeline. -/
def wMediaItem : FileItem :=
  { type := "original_media", version := 1, path := "original/media.mp4",
    state := FileState.processing, generatedBy := "yt-dlp@2024.12.04",
    derivedFrom := [], metadata := none }

/-- A document with one queued `download_media` task and its artifact. -/
def wExecManifest : Manifest :=
  { id := "m2", hashId := "h2", metadata := {},
    fileManifest := [wMediaItem], tasks := [wDownloadTask],
    createdAt := "c", updatedAt := "u", schemaVersion := "0.3.5" }

/-- A queued task whose id has no `TASK_WORKER_MAP` entry (`purge_media` is a
manual task with no registered worker invocation). -/
def wUnmappedTask : Task :=
  { id := "purge_media", title := "Delete original media but keep processing results",
    state := TaskState.queued, percent := 0,
    relatedOutput := "original_media",
    startedAt := none, updatedAt := none, error := none, context := none }

/-- A document with one queued task that has no registered worker. -/
def wConfigManifest : Manifest :=
  { id := "m3", hashId := "h3", metadata := {},
    fileManifest := [wMediaItem], tasks := [wUnmappedTask],
    createdAt := "c", updatedAt := "u", schemaVersion := "0.3.5" }

/-- A progress-protocol `JSON.parse` oracle recognizing the single fragment
`\x7b"percent":100\x7d`. -/
def wJsonParse : String → Option ProgressData := fun s =>
  if s == "\x7b\"percent\":100\x7d" then some { percent := some 100, write := false }
  else none

/-- A stdout chunk carrying a 100% progress fragment. -/
def wChunk : String := "\x7b\"percent\":100\x7d"

/-- An artifact in state `error` that still carries a cached recorded size. -/
def wErrorFile : FileItem :=
  { type := "original_media", version := 1, path := "original/media.mp4",
    state := FileState.error, generatedBy := "yt-dlp@2024.12.04",
    derivedFrom := [], metadata := some { diskSize := some 500 } }

/-- A filesystem oracle with no stat-able files. -/
def wStat : String → String → Option Int := fun _ _ => none

/-- A `ready` primary media artifact with full media metadata. -/
def wReadyMediaItem : FileItem :=
  { type := "original_media", version := 2, path := "original/media.mp4",
    state := FileState.ready, generatedBy := "yt-dlp@2024.12.04",
    derivedFrom := [],
    metadata := some
      { quality := some "1080p", mediaType := some "local", duration := some 63,
        dimensions := some { width := 1920, height := 1080 },
        diskSize := some 1000 } }

/-- A document whose primary media artifact is `ready`. -/
def wPurgeManifest : Manifest :=
  { id := "m4", hashId := "h4", metadata := {},
    fileManifest := [wReadyMediaItem], tasks := [],
    createdAt := "c", updatedAt := "u", schemaVersion := "0.3.5" }

/-- Purge options keeping results and thumbnail. -/
def wPurgeOptions : PurgeOptions :=
  { keepResults := true, keepThumbnail := true, reason := "disk_space" }

/-- The document produced by purging `wPurgeManifest` (success path, media
and thumbnail present on disk). -/
def wPurged : Manifest :=
  (purgeContent wPurgeManifest wPurgeOptions "T" true true).getD wPurgeManifest

/-- Relation between a task before and after progress scanning: everything but
`percent` and `updatedAt` is unchanged, and a task whose id is not the
scanned task's id is untouched entirely. -/
def progressOnlyRel (tid : String) (a b : Task) : Prop :=
  a.id = b.id ∧ a.title = b.title ∧ a.state = b.state ∧
  a.relatedOutput = b.relatedOutput ∧ a.startedAt = b.startedAt ∧
  a.error = b.error ∧ a.context = b.context ∧
  (a.id ≠ tid → a = b)

/-! ## Invariants of the evaluator pass

The evaluator appends only placeholder artifacts (state `queued`, metadata
`null`) to the artifact list, and only tasks whose ids are rule ids to the
task list.  Conditions of the rule table are insensitive to such appends,
except through the has-a-task-with-this-id guard. -/

/-- Artifacts the evaluator may push during a pass: placeholders in state
`queued` with `null` metadata. -/
def GoodPlaceholders (P : List FileItem) : Prop :=
  ∀ p ∈ P, p.state = FileState.queued ∧ p.metadata = none

/-- Tasks the evaluator may append during a pass never carry the id
`fetch_info_json` (the only task id a trigger condition inspects beyond its
own guard). -/
def GoodNewTasks (N : List Task) : Prop :=
  ∀ n ∈ N, n.id ≠ "fetch_info_json"

/-- A rule's trigger condition, evaluated on a document extended by evaluator
appends, equals its value on the base document conjoined with the absence of
the rule's own id among the appended tasks. -/
def CondStable (dep : TaskDependency) : Prop :=
  ∀ (m₁ m₂ : Manifest) (P : List FileItem) (N : List Task),
    m₂.fileManifest = m₁.fileManifest ++ P →
    m₂.tasks = m₁.tasks ++ N →
    GoodPlaceholders P → GoodNewTasks N →
    dep.triggerCondition m₂ = (dep.triggerCondition m₁ && !(hasTaskId N dep.id))

theorem fileCheck_append (fm P : List FileItem) (ty : String) (p : FileItem → Bool)
    (h : ∀ f ∈ P, p f = false) :
    fileCheck (fm ++ P) ty p = fileCheck fm ty p := by
  unfold fileCheck
  rw [List.find?_append]
  cases hf : fm.find? (fun f => f.type == ty) with
  | some f => rfl
  | none =>
    cases hP : P.find? (fun f => f.type == ty) with
    | none => rfl
    | some f =>
      have hm := List.mem_of_find?_eq_some hP
      simp [Option.any, h f hm]

theorem taskCheck_append (ts N : List Task) (i : String) (p : Task → Bool)
    (h : ∀ n ∈ N, (n.id == i) = false) :
    taskCheck (ts ++ N) i p = taskCheck ts i p := by
  unfold taskCheck
  rw [List.find?_append]
  have hN : N.find? (fun tk => tk.id == i) = none := List.find?_eq_none.mpr (by
    intro n hn
    simp [h n hn])
  rw [hN]
  cases ts.find? (fun tk => tk.id == i) <;> rfl

theorem hasTaskId_append (ts N : List Task) (i : String) :
    hasTaskId (ts ++ N) i = (hasTaskId ts i || hasTaskId N i) :=
  List.any_append

theorem bool_guard_split (a h hn : Bool) :
    (a && !(h || hn)) = ((a && !h) && !hn) := by
  cases a <;> cases h <;> cases hn <;> rfl

theorem goodNewTasks_beq (N : List Task) (h : GoodNewTasks N) :
    ∀ n ∈ N, (n.id == "fetch_info_json") = false := by
  intro n hn
  exact beq_eq_false_iff_ne.mpr (h n hn)

theorem goodPlaceholders_ready (P : List FileItem) (h : GoodPlaceholders P) :
    ∀ f ∈ P, (f.state == FileState.ready) = false := by
  intro f hf
  rw [(h f hf).1]
  rfl

theorem goodPlaceholders_local (P : List FileItem) (h : GoodPlaceholders P) :
    ∀ f ∈ P, ((f.metadata.bind fun md => md.mediaType) == some "local") = false := by
  intro f hf
  rw [(h f hf).2]
  rfl

/-- Every rule of the table has a stable trigger condition. -/
theorem condStable_all : ∀ dep ∈ TASK_DEPENDENCIES, CondStable dep := by
  intro dep hdep
  simp only [TASK_DEPENDENCIES, List.mem_cons, List.not_mem_nil, or_false] at hdep
  rcases hdep with h | h | h | h | h | h | h | h | h <;> subst h <;>
    intro m₁ m₂ P N hfm hts hP hN <;>
    dsimp only <;>
    rw [hfm, hts, hasTaskId_append] <;>
    [rw [taskCheck_append _ _ _ _ (goodNewTasks_beq N hN),
         fileCheck_append _ _ _ _ (goodPlaceholders_ready P hP)];
     rw [fileCheck_append _ _ _ _ (goodPlaceholders_ready P hP),
         fileCheck_append _ _ _ _ (goodPlaceholders_local P hP)];
     rw [fileCheck_append _ _ _ _ (goodPlaceholders_ready P hP)];
     rw [fileCheck_append _ _ _ _ (goodPlaceholders_ready P hP),
         fileCheck_append _ _ _ _ (goodPlaceholders_ready P hP)];
     rw [fileCheck_append _ _ _ _ (goodPlaceholders_ready P hP)];
     rw [fileCheck_append _ _ _ _ (goodPlaceholders_ready P hP)];
     rw [fileCheck_append _ _ _ _ (goodPlaceholders_ready P hP)];
     rw [fileCheck_append _ _ _ _ (goodPlaceholders_ready P hP)];
     rw [fileCheck_append _ _ _ _ (goodPlaceholders_ready P hP)]] <;>
    exact bool_guard_split _ _ _

/-- Every rule's `createTask` emits the rule's own id. -/
theorem createTask_id : ∀ dep ∈ TASK_DEPENDENCIES, ∀ mm : Manifest,
    (dep.createTask mm).id = dep.id := by
  intro dep hdep mm
  simp only [TASK_DEPENDENCIES, List.mem_cons, List.not_mem_nil, or_false] at hdep
  rcases hdep with h | h | h | h | h | h | h | h | h <;> subst h <;> rfl

/-- Every rule's trigger condition is false as soon as a task with the rule's
id is present: `!manifest.tasks.some(t => t.id === dep.id)` is a conjunct of
every condition. -/
theorem trigger_guard : ∀ dep ∈ TASK_DEPENDENCIES, ∀ m : Manifest,
    hasTaskId m.tasks dep.id = true → dep.triggerCondition m = false := by
  intro dep hdep m hm
  simp only [TASK_DEPENDENCIES, List.mem_cons, List.not_mem_nil, or_false] at hdep
  rcases hdep with h | h | h | h | h | h | h | h | h <;> subst h <;>
    dsimp only at hm ⊢ <;> rw [hm] <;> simp

/-- No rule of the table has the id `fetch_info_json`. -/
theorem ruleIds_ne_fetch : ∀ dep ∈ TASK_DEPENDENCIES, dep.id ≠ "fetch_info_json" := by
  intro dep hdep
  simp only [TASK_DEPENDENCIES, List.mem_cons, List.not_mem_nil, or_false] at hdep
  rcases hdep with h | h | h | h | h | h | h | h | h <;> subst h <;> decide

theorem ftStep_unfired (m : Manifest) (acc : List Task) (fm : List FileItem)
    (dep : TaskDependency)
    (hc : dep.triggerCondition { m with fileManifest := fm } = false) :
    ftStep m (acc, fm) dep = (acc, fm) := by
  unfold ftStep
  simp [hc]

theorem mkNewTask_id (dep : TaskDependency) (cur : Manifest)
    (hid : (dep.createTask cur).id = dep.id) :
    (mkNewTask dep cur).id = dep.id := by
  unfold mkNewTask
  dsimp only
  rw [hid]
  unfold jsOrStr
  exact ite_self _

theorem ftStep_fired (m : Manifest) (acc : List Task) (fm : List FileItem)
    (dep : TaskDependency)
    (hc : dep.triggerCondition { m with fileManifest := fm } = true) :
    ∃ (Pd : List FileItem),
      ftStep m (acc, fm) dep =
        (acc ++ [mkNewTask dep { m with fileManifest := fm }], fm ++ Pd) ∧
      GoodPlaceholders Pd := by
  unfold ftStep
  simp only [hc, if_true]
  by_cases hro :
      (fm.any fun f =>
        f.type == (mkNewTask dep { m with fileManifest := fm }).relatedOutput) = true
  · refine ⟨[], ?_, ?_⟩
    · simp only [hro, if_true]
      rw [List.append_nil]
    · intro p hp; cases hp
  · rw [Bool.not_eq_true] at hro
    refine ⟨[mkPlaceholder dep { m with fileManifest := fm }
        (mkNewTask dep { m with fileManifest := fm }).relatedOutput], ?_, ?_⟩
    · simp only [hro]
      simp
    · intro p hp
      rw [List.mem_singleton] at hp
      subst hp
      exact ⟨rfl, rfl⟩

/-- Characterization of the evaluator pass: starting from the base document
with placeholders `P` already pushed, a run over the remaining rules appends
one task per rule whose condition holds on the base document, plus queued
placeholders; the ids of the appended tasks are exactly the ids of the fired
rules, in table order. -/
theorem ftFold_spec (m : Manifest) :
    ∀ (L : List TaskDependency),
      (∀ dep ∈ L, CondStable dep) →
      (∀ dep ∈ L, ∀ mm : Manifest, (dep.createTask mm).id = dep.id) →
      ∀ (acc : List Task) (P : List FileItem), GoodPlaceholders P →
      ∃ (N : List Task) (P' : List FileItem),
        L.foldl (ftStep m) (acc, m.fileManifest ++ P) =
          (acc ++ N, m.fileManifest ++ (P ++ P')) ∧
        GoodPlaceholders P' ∧
        N.map (fun t => t.id) =
          (L.filter fun dep => dep.triggerCondition m).map (fun d => d.id) ∧
        (N = [] → P' = []) := by
  intro L
  induction L with
  | nil =>
    intro _ _ acc P hP
    refine ⟨[], [], by simp, ?_, by simp, fun _ => rfl⟩
    intro p hp; cases hp
  | cons dep L ih =>
    intro hstab hcid acc P hP
    have hdepStab : CondStable dep := hstab dep (List.mem_cons_self _ _)
    have hcond : dep.triggerCondition { m with fileManifest := m.fileManifest ++ P } =
        dep.triggerCondition m := by
      have h := hdepStab m { m with fileManifest := m.fileManifest ++ P } P []
        rfl (by simp) hP (by intro n hn; cases hn)
      simpa [hasTaskId] using h
    rw [List.foldl_cons]
    by_cases hc : dep.triggerCondition m = true
    · obtain ⟨Pd, hstep, hPd⟩ :=
        ftStep_fired m acc (m.fileManifest ++ P) dep (hcond.trans hc)
      have hnid : (mkNewTask dep { m with fileManifest := m.fileManifest ++ P }).id = dep.id :=
        mkNewTask_id dep _ (hcid dep (List.mem_cons_self _ _) _)
      have hPPd : GoodPlaceholders (P ++ Pd) := by
        intro p hp
        rcases List.mem_append.mp hp with h | h
        · exact hP p h
        · exact hPd p h
      obtain ⟨N', P'', heq, hgood, hids, _⟩ :=
        ih (fun d hd => hstab d (List.mem_cons_of_mem _ hd))
          (fun d hd => hcid d (List.mem_cons_of_mem _ hd))
          (acc ++ [mkNewTask dep { m with fileManifest := m.fileManifest ++ P }]) (P ++ Pd) hPPd
      refine ⟨mkNewTask dep { m with fileManifest := m.fileManifest ++ P } :: N',
        Pd ++ P'', ?_, ?_, ?_, by intro h; cases h⟩
      · rw [hstep, List.append_assoc m.fileManifest P Pd, heq]
        simp [List.append_assoc]
      · intro p hp
        rcases List.mem_append.mp hp with h | h
        · exact hPd p h
        · exact hgood p h
      · simp only [List.map_cons, hnid, List.filter_cons, hc, if_true, hids]
    · rw [Bool.not_eq_true] at hc
      rw [ftStep_unfired m acc (m.fileManifest ++ P) dep (hcond.trans hc)]
      obtain ⟨N, P', heq, hgood, hids, himp⟩ :=
        ih (fun d hd => hstab d (List.mem_cons_of_mem _ hd))
          (fun d hd => hcid d (List.mem_cons_of_mem _ hd)) acc P hP
      exact ⟨N, P', heq, hgood, by simp [List.filter_cons, hc, hids], himp⟩

/-- Characterization of one full `findTasksToTrigger` pass. -/
theorem findTasksToTrigger_spec (m : Manifest) :
    ∃ (N : List Task) (P' : List FileItem),
      findTasksToTrigger m = (N, m.fileManifest ++ P') ∧
      GoodPlaceholders P' ∧
      N.map (fun t => t.id) =
        (TASK_DEPENDENCIES.filter fun dep => dep.triggerCondition m).map (fun d => d.id) ∧
      (N = [] → P' = []) := by
  obtain ⟨N, P', heq, hgood, hids, himp⟩ :=
    ftFold_spec m TASK_DEPENDENCIES condStable_all createTask_id [] []
      (by intro p hp; cases hp)
  refine ⟨N, P', ?_, hgood, hids, himp⟩
  unfold findTasksToTrigger
  simpa using heq

/-- Each newly created task comes from a rule that fired on the document. -/
theorem newTask_from_fired {m : Manifest} {N : List Task}
    (hids : N.map (fun t => t.id) =
      (TASK_DEPENDENCIES.filter fun dep => dep.triggerCondition m).map (fun d => d.id)) :
    ∀ n ∈ N, ∃ dep ∈ TASK_DEPENDENCIES, dep.triggerCondition m = true ∧ dep.id = n.id := by
  intro n hn
  have hmem : n.id ∈ N.map (fun t => t.id) := List.mem_map.mpr ⟨n, hn, rfl⟩
  rw [hids] at hmem
  obtain ⟨d, hd, hdid⟩ := List.mem_map.mp hmem
  rw [List.mem_filter] at hd
  exact ⟨d, hd.1, hd.2, hdid⟩

/-- Conversely, each fired rule's id is among the new tasks' ids. -/
theorem fired_id_mem {m : Manifest} {N : List Task}
    (hids : N.map (fun t => t.id) =
      (TASK_DEPENDENCIES.filter fun dep => dep.triggerCondition m).map (fun d => d.id)) :
    ∀ dep ∈ TASK_DEPENDENCIES, dep.triggerCondition m = true →
      hasTaskId N dep.id = true := by
  intro dep hdep hc
  have hmem : dep.id ∈
      (TASK_DEPENDENCIES.filter fun d => d.triggerCondition m).map (fun d => d.id) :=
    List.mem_map.mpr ⟨dep, List.mem_filter.mpr ⟨hdep, hc⟩, rfl⟩
  rw [← hids] at hmem
  obtain ⟨n, hn, hnid⟩ := List.mem_map.mp hmem
  unfold hasTaskId
  rw [List.any_eq_true]
  exact ⟨n, hn, by simp [hnid]⟩

/-- Projections of `updateTaskDependencies`: the artifact list receives the
placeholders, the task list the new tasks. -/
theorem updateTaskDependencies_spec (m : Manifest) (now : String) :
    ∃ (N : List Task) (P' : List FileItem),
      findTasksToTrigger m = (N, m.fileManifest ++ P') ∧
      GoodPlaceholders P' ∧
      N.map (fun t => t.id) =
        (TASK_DEPENDENCIES.filter fun dep => dep.triggerCondition m).map (fun d => d.id) ∧
      (updateTaskDependencies m now).fileManifest = m.fileManifest ++ P' ∧
      (updateTaskDependencies m now).tasks = m.tasks ++ N := by
  obtain ⟨N, P', heq, hgood, hids, himp⟩ := findTasksToTrigger_spec m
  refine ⟨N, P', heq, hgood, hids, ?_, ?_⟩
  · unfold updateTaskDependencies
    rw [heq]
    by_cases hN : N.isEmpty = true <;> simp [hN]
  · unfold updateTaskDependencies
    rw [heq]
    by_cases hN : N.isEmpty = true
    · rw [List.isEmpty_iff] at hN
      subst hN
      simp
    · rw [Bool.not_eq_true] at hN
      simp [hN]

/-- The tasks appended by an evaluator pass never carry `fetch_info_json`. -/
theorem newTasks_goodNew {m : Manifest} {N : List Task}
    (hids : N.map (fun t => t.id) =
      (TASK_DEPENDENCIES.filter fun dep => dep.triggerCondition m).map (fun d => d.id)) :
    GoodNewTasks N := by
  intro n hn
  obtain ⟨dep, hdep, _, hdid⟩ := newTask_from_fired hids n hn
  rw [← hdid]
  exact ruleIds_ne_fetch dep hdep

/-- A second evaluator pass immediately after `updateTaskDependencies`
creates no tasks. -/
theorem evaluator_second_run (m : Manifest) (now : String) :
    (findTasksToTrigger (updateTaskDependencies m now)).fst = [] := by
  obtain ⟨N, P', _, hgood, hids, hfm, hts⟩ := updateTaskDependencies_spec m now
  have hGN : GoodNewTasks N := newTasks_goodNew hids
  have hcond : ∀ dep ∈ TASK_DEPENDENCIES,
      dep.triggerCondition (updateTaskDependencies m now) = false := by
    intro dep hdep
    have hstab := condStable_all dep hdep m (updateTaskDependencies m now) P' N
      hfm hts hgood hGN
    by_cases hc : dep.triggerCondition m = true
    · have hhas := fired_id_mem hids dep hdep hc
      rw [hstab, hc, hhas]
      rfl
    · rw [Bool.not_eq_true] at hc
      rw [hstab, hc]
      rfl
  obtain ⟨N₂, P₂, heq₂, _, hids₂, _⟩ := findTasksToTrigger_spec (updateTaskDependencies m now)
  rw [heq₂]
  have hfil : (TASK_DEPENDENCIES.filter
      fun dep => dep.triggerCondition (updateTaskDependencies m now)) = [] :=
    List.filter_eq_nil_iff.mpr (by intro d hd; simp [hcond d hd])
  rw [hfil] at hids₂
  simp only [List.map_nil, List.map_eq_nil_iff] at hids₂
  exact hids₂

/-- Whether a pass creates a task with a given id, reduced to the rule table. -/
theorem findTasks_fires (m : Manifest) (rid : String) :
    (findTasksToTrigger m).fst.any (fun t => t.id == rid) =
      TASK_DEPENDENCIES.any (fun dep => dep.triggerCondition m && dep.id == rid) := by
  obtain ⟨N, P', heq, _, hids, _⟩ := findTasksToTrigger_spec m
  rw [heq]
  dsimp only
  have hmapany : ∀ {α β : Type} (f : α → β) (p : β → Bool) (l : List α),
      (l.map f).any p = l.any (fun a => p (f a)) := by
    intro α β f p l
    induction l with
    | nil => rfl
    | cons a l ih => simp [ih]
  have h1 : N.any (fun t => t.id == rid) =
      (N.map fun t => t.id).any (fun s => s == rid) :=
    (hmapany (fun t : Task => t.id) (fun s => s == rid) N).symm
  have h2 : ((TASK_DEPENDENCIES.filter fun dep => dep.triggerCondition m).map
        fun d => d.id).any (fun s => s == rid) =
      (TASK_DEPENDENCIES.filter fun dep => dep.triggerCondition m).any
        (fun d => d.id == rid) :=
    hmapany (fun d : TaskDependency => d.id) (fun s => s == rid) _
  rw [h1, hids, h2, List.any_filter]

/-! ## Claim C1 -/

/-- C1: for every manifest document, running the Dependency Evaluator twice
in succession with no intervening task execution yields an empty set of new
tasks on the second run; and for every rule in the table, the rule's trigger
condition returns false once a task with that rule's id is present in the
document's task list. -/
theorem evaluator_idempotent :
    (∀ (m : Manifest) (now : String),
      (findTasksToTrigger (updateTaskDependencies m now)).fst = []) ∧
    (∀ dep ∈ TASK_DEPENDENCIES, ∀ m : Manifest,
      hasTaskId m.tasks dep.id = true → dep.triggerCondition m = false) :=
  ⟨evaluator_second_run, trigger_guard⟩

/-- Witness for `evaluator_idempotent`: a concrete document that already
contains a `merge_transcripts` task; the second evaluator run creates
nothing, and the `merge_transcripts` rule (table entry 3) does not fire. -/
theorem evaluator_idempotent_witness :
    (findTasksToTrigger (updateTaskDependencies wManifest "T")).fst = [] ∧
    (TASK_DEPENDENCIES.get ⟨3, by decide⟩).triggerCondition wManifest = false :=
  ⟨evaluator_idempotent.1 wManifest "T",
   evaluator_idempotent.2 (TASK_DEPENDENCIES.get ⟨3, by decide⟩)
     (TASK_DEPENDENCIES.get_mem _ _) wManifest (by decide)⟩

/-! ## Claim C3 -/

/-- C3: the `merge_transcripts` rule fires (the evaluator creates a
`merge_transcripts` task) exactly when the `transcript_en_vtt` artifact and
the `transcript_zh_vtt` artifact are both simultaneously in state `ready`
and no `merge_transcripts` task exists yet; in particular it does not fire
when either artifact is absent or in any state other than `ready`
(including `error`), regardless of the order in which the two became
ready. -/
theorem merge_transcripts_fan_in (m : Manifest) :
    (findTasksToTrigger m).fst.any (fun t => t.id == "merge_transcripts") =
      (fileCheck m.fileManifest "transcript_en_vtt" (fun f => f.state == FileState.ready) &&
       fileCheck m.fileManifest "transcript_zh_vtt" (fun f => f.state == FileState.ready) &&
       !(hasTaskId m.tasks "merge_transcripts")) := by
  rw [findTasks_fires]
  simp only [TASK_DEPENDENCIES, List.any_cons, List.any_nil]
  simp only [show ("download_media" == "merge_transcripts") = false from by decide,
    show ("extract_audio" == "merge_transcripts") = false from by decide,
    show ("transcribe_whisperx" == "merge_transcripts") = false from by decide,
    show ("merge_transcripts" == "merge_transcripts") = true from by decide,
    show ("extract_text" == "merge_transcripts") = false from by decide,
    show ("generate_rich_summary" == "merge_transcripts") = false from by decide,
    show ("extract_topics" == "merge_transcripts") = false from by decide,
    show ("generate_speech_summary" == "merge_transcripts") = false from by decide,
    show ("initialize_text_chat" == "merge_transcripts") = false from by decide,
    Bool.and_false, Bool.and_true, Bool.false_or, Bool.or_false]

/-! ## Claim C9 -/

/-- C9: the `extract_audio` rule fires (the evaluator creates an
`extract_audio` task) exactly when the `original_media` artifact is in state
`ready`, its metadata marks the media as locally stored
(`metadata.mediaType === 'local'`), and no `extract_audio` task exists yet;
for a bucket whose original media is an iframe embed (`mediaType` not
`'local'`) the rule never fires even though the artifact is `ready`. -/
theorem extract_audio_requires_local (m : Manifest) :
    (findTasksToTrigger m).fst.any (fun t => t.id == "extract_audio") =
      (fileCheck m.fileManifest "original_media" (fun f => f.state == FileState.ready) &&
       fileCheck m.fileManifest "original_media"
         (fun f => (f.metadata.bind fun md => md.mediaType) == some "local") &&
       !(hasTaskId m.tasks "extract_audio")) := by
  rw [findTasks_fires]
  simp only [TASK_DEPENDENCIES, List.any_cons, List.any_nil]
  simp only [show ("download_media" == "extract_audio") = false from by decide,
    show ("extract_audio" == "extract_audio") = true from by decide,
    show ("transcribe_whisperx" == "extract_audio") = false from by decide,
    show ("merge_transcripts" == "extract_audio") = false from by decide,
    show ("extract_text" == "extract_audio") = false from by decide,
    show ("generate_rich_summary" == "extract_audio") = false from by decide,
    show ("extract_topics" == "extract_audio") = false from by decide,
    show ("generate_speech_summary" == "extract_audio") = false from by decide,
    show ("initialize_text_chat" == "extract_audio") = false from by decide,
    Bool.and_false, Bool.and_true, Bool.false_or, Bool.or_false]

/-! ## Properties of the runner's `updateTask` -/

theorem applyUpdates_id (tk : Task) (u : TaskUpdates) (now : String) :
    (applyUpdates tk u now).id = tk.id := rfl

theorem updateTask_map_id (m : Manifest) (tid : String) (u : TaskUpdates)
    (fu : Option (String × FileState)) (now : String) :
    (updateTask m tid u fu now).tasks.map (fun t => t.id) =
      m.tasks.map (fun t => t.id) := by
  unfold updateTask
  dsimp only
  induction m.tasks with
  | nil => rfl
  | cons a ts ih =>
    by_cases h : (a.id == tid) = true <;>
      simp only [List.map_cons, h, Bool.false_eq_true, if_true, if_false,
        applyUpdates_id] <;>
      rw [ih]

theorem updateTask_mem_id (m : Manifest) (tid : String) (u : TaskUpdates)
    (fu : Option (String × FileState)) (now : String) :
    ∀ tk' ∈ (updateTask m tid u fu now).tasks, tk'.id = tid →
      ∃ tk ∈ m.tasks, tk.id = tid ∧ tk' = applyUpdates tk u now := by
  intro tk' h hid
  obtain ⟨tk, htk, heq⟩ := List.mem_map.mp h
  by_cases hb : (tk.id == tid) = true
  · refine ⟨tk, htk, by simpa using hb, ?_⟩
    rw [← heq]
    simp [hb]
  · exfalso
    rw [Bool.not_eq_true] at hb
    rw [← heq] at hid
    simp only [hb] at hid
    simp only [Bool.false_eq_true, if_false] at hid
    rw [hid] at hb
    simp at hb

theorem updateTask_mem_exists (m : Manifest) (tid : String) (u : TaskUpdates)
    (fu : Option (String × FileState)) (now : String)
    (h : ∃ tk ∈ m.tasks, tk.id = tid) :
    ∃ tk' ∈ (updateTask m tid u fu now).tasks, tk'.id = tid := by
  obtain ⟨tk, htk, hid⟩ := h
  have hb : (tk.id == tid) = true := by simpa using hid
  refine ⟨applyUpdates tk u now, ?_, by rw [applyUpdates_id]; exact hid⟩
  exact List.mem_map.mpr ⟨tk, htk, by simp [hb]⟩

theorem updateTask_mem_other (m : Manifest) (tid : String) (u : TaskUpdates)
    (fu : Option (String × FileState)) (now : String) :
    ∀ tk ∈ m.tasks, tk.id ≠ tid → tk ∈ (updateTask m tid u fu now).tasks := by
  intro tk htk hne
  have hb : (tk.id == tid) = false := beq_eq_false_iff_ne.mpr hne
  exact List.mem_map.mpr ⟨tk, htk, by simp [hb]⟩

theorem updateTask_fm_none (m : Manifest) (tid : String) (u : TaskUpdates) (now : String) :
    (updateTask m tid u none now).fileManifest = m.fileManifest := rfl

theorem updateTask_file_state (m : Manifest) (tid : String) (u : TaskUpdates)
    (ty : String) (st : FileState) (now : String) :
    ∀ f ∈ (updateTask m tid u (some (ty, st)) now).fileManifest,
      f.type = ty → f.state = st := by
  intro f hf hty
  obtain ⟨g, hg, heq⟩ := List.mem_map.mp hf
  by_cases hb : (g.type == ty) = true
  · rw [← heq]
    simp [hb]
  · exfalso
    rw [Bool.not_eq_true] at hb
    rw [← heq] at hty
    simp only [hb, Bool.false_eq_true, if_false] at hty
    rw [hty] at hb
    simp at hb

theorem updateTask_fm_map_type (m : Manifest) (tid : String) (u : TaskUpdates)
    (fu : Option (String × FileState)) (now : String) :
    (updateTask m tid u fu now).fileManifest.map (fun f => f.type) =
      m.fileManifest.map (fun f => f.type) := by
  unfold updateTask
  dsimp only
  cases fu with
  | none => rfl
  | some p =>
    induction m.fileManifest with
    | nil => rfl
    | cons a fs ih =>
      by_cases h : (a.type == p.fst) = true <;> simp only [List.map_cons] <;> rw [ih] <;>
        simp [h]

theorem exists_id_of_map_id {l₁ l₂ : List Task} {i : String}
    (h : l₁.map (fun t => t.id) = l₂.map (fun t => t.id))
    (hid : ∃ tk ∈ l₁, tk.id = i) : ∃ tk ∈ l₂, tk.id = i := by
  obtain ⟨tk, htk, htkid⟩ := hid
  have hmem : i ∈ l₁.map (fun t => t.id) := List.mem_map.mpr ⟨tk, htk, htkid⟩
  rw [h] at hmem
  obtain ⟨b, hb, hbid⟩ := List.mem_map.mp hmem
  exact ⟨b, hb, hbid⟩

/-! ## Properties of the stdout progress scanner -/

theorem progressOnlyRel_refl (tid : String) (l : List Task) :
    List.Forall₂ (progressOnlyRel tid) l l := by
  induction l with
  | nil => exact List.Forall₂.nil
  | cons a l ih =>
    exact List.Forall₂.cons ⟨rfl, rfl, rfl, rfl, rfl, rfl, rfl, fun _ => rfl⟩ ih

theorem forall₂_map_right {α : Type} {R S : α → α → Prop} (g : α → α)
    (h : ∀ a b, R a b → S a (g b)) :
    ∀ {l₁ l₂ : List α}, List.Forall₂ R l₁ l₂ → List.Forall₂ S l₁ (l₂.map g) := by
  intro l₁ l₂ hf
  induction hf with
  | nil => exact List.Forall₂.nil
  | cons hab _ ih => exact List.Forall₂.cons (h _ _ hab) ih

theorem progress_update_rel (m₀ ms : Manifest) (tid now : String) (n : Int)
    (hfm : ms.fileManifest = m₀.fileManifest)
    (hts : List.Forall₂ (progressOnlyRel tid) m₀.tasks ms.tasks) :
    (updateTask ms tid { percent := some n } none now).fileManifest = m₀.fileManifest ∧
    List.Forall₂ (progressOnlyRel tid) m₀.tasks
      (updateTask ms tid { percent := some n } none now).tasks := by
  constructor
  · rw [updateTask_fm_none]; exact hfm
  · refine forall₂_map_right _ ?_ hts
    intro a b hab
    by_cases hb : (b.id == tid) = true
    · simp only [hb, if_true]
      obtain ⟨h1, h2, h3, h4, h5, h6, h7, _⟩ := hab
      refine ⟨h1, h2, h3, h4, h5, h6, h7, ?_⟩
      intro hne
      exfalso
      exact hne (h1.trans (by simpa using hb))
    · simp only [hb, Bool.false_eq_true, if_false]
      exact hab

theorem applyMatches_noop (jp : String → Option ProgressData) (tid now : String) :
    ∀ (L : List String) (ms : Manifest) (ws : List Manifest),
      (∀ s ∈ L, ∀ pd, jp s = some pd → pd.percent = none) →
      applyMatches jp tid now L (ms, ws) = (ms, ws) := by
  intro L
  induction L with
  | nil => intro ms ws _; rfl
  | cons s L ih =>
    intro ms ws h
    cases hjp : jp s with
    | none => simp [applyMatches, hjp]
    | some pd =>
      have hpct := h s (List.mem_cons_self _ _) pd hjp
      simp [applyMatches, hjp, hpct,
        ih ms ws (fun s' hs' => h s' (List.mem_cons_of_mem _ hs'))]

theorem applyMatches_rel (jp : String → Option ProgressData) (tid now : String)
    (m₀ : Manifest) :
    ∀ (L : List String) (ms : Manifest) (ws : List Manifest),
      ms.fileManifest = m₀.fileManifest →
      List.Forall₂ (progressOnlyRel tid) m₀.tasks ms.tasks →
      ((applyMatches jp tid now L (ms, ws)).fst.fileManifest = m₀.fileManifest ∧
       List.Forall₂ (progressOnlyRel tid) m₀.tasks
         (applyMatches jp tid now L (ms, ws)).fst.tasks ∧
       ∃ extra, (applyMatches jp tid now L (ms, ws)).snd = ws ++ extra ∧
         ∀ w ∈ extra, ∃ s ∈ L, ∃ pd n, jp s = some pd ∧ pd.percent = some n ∧
           (n % 10 = 0 ∨ pd.write = true)) := by
  intro L
  induction L with
  | nil =>
    intro ms ws hfm hts
    exact ⟨hfm, hts, [], by simp [applyMatches], by intro w hw; cases hw⟩
  | cons s L ih =>
    intro ms ws hfm hts
    cases hjp : jp s with
    | none =>
      simp only [applyMatches, hjp]
      exact ⟨hfm, hts, [], by simp, by intro w hw; cases hw⟩
    | some pd =>
      cases hpct : pd.percent with
      | none =>
        simp only [applyMatches, hjp, hpct]
        obtain ⟨h1, h2, extra, hextra, hprop⟩ := ih ms ws hfm hts
        refine ⟨h1, h2, extra, hextra, ?_⟩
        intro w hw
        obtain ⟨s', hs', rest⟩ := hprop w hw
        exact ⟨s', List.mem_cons_of_mem _ hs', rest⟩
      | some n =>
        simp only [applyMatches, hjp, hpct]
        obtain ⟨hfm', hts'⟩ := progress_update_rel m₀ ms tid now n hfm hts
        by_cases hw10 : (n % 10 == 0 || pd.write) = true
        · simp only [hw10, if_true]
          obtain ⟨h1, h2, extra, hextra, hprop⟩ :=
            ih (updateTask ms tid { percent := some n } none now)
              (ws ++ [updateTask ms tid { percent := some n } none now]) hfm' hts'
          refine ⟨h1, h2, updateTask ms tid { percent := some n } none now :: extra, ?_, ?_⟩
          · rw [hextra]
            simp
          · intro w hw
            rcases List.mem_cons.mp hw with hw | hw
            · refine ⟨s, List.mem_cons_self _ _, pd, n, hjp, hpct, ?_⟩
              rcases Bool.or_eq_true_iff.mp hw10 with h | h
              · exact Or.inl (by simpa using h)
              · exact Or.inr h
            · obtain ⟨s', hs', rest⟩ := hprop w hw
              exact ⟨s', List.mem_cons_of_mem _ hs', rest⟩
        · rw [Bool.not_eq_true] at hw10
          simp only [hw10, Bool.false_eq_true, if_false]
          obtain ⟨h1, h2, extra, hextra, hprop⟩ :=
            ih (updateTask ms tid { percent := some n } none now) ws hfm' hts'
          refine ⟨h1, h2, extra, hextra, ?_⟩
          intro w hw
          obtain ⟨s', hs', rest⟩ := hprop w hw
          exact ⟨s', List.mem_cons_of_mem _ hs', rest⟩

/-! ## Claim C10 -/

/-- C10: while scanning one stdout chunk, only a brace-delimited fragment
that parses as JSON with a numeric `percent` field can change anything, the
change touches nothing but the scanned task's `percent` (and `updatedAt`)
and leaves the artifact list and every other task intact, every disk write
performed while scanning is caused by a fragment whose percent is a multiple
of 10 or which carries a write flag, and a chunk with no such fragment
leaves both the in-memory document and the write sequence unchanged. -/
theorem stdout_progress_safety (jp : String → Option ProgressData)
    (m : Manifest) (tid now : String) (ws : List Manifest) (chunk : String) :
    ((∀ s ∈ extractJsonMatches chunk, ∀ pd, jp s = some pd → pd.percent = none) →
      applyChunk jp tid now (m, ws) chunk = (m, ws)) ∧
    (applyChunk jp tid now (m, ws) chunk).fst.fileManifest = m.fileManifest ∧
    List.Forall₂ (progressOnlyRel tid) m.tasks
      (applyChunk jp tid now (m, ws) chunk).fst.tasks ∧
    ∃ extra, (applyChunk jp tid now (m, ws) chunk).snd = ws ++ extra ∧
      ∀ w ∈ extra, ∃ s ∈ extractJsonMatches chunk, ∃ pd n, jp s = some pd ∧
        pd.percent = some n ∧ (n % 10 = 0 ∨ pd.write = true) := by
  have hrel := applyMatches_rel jp tid now m (extractJsonMatches chunk) m ws rfl
    (progressOnlyRel_refl tid m.tasks)
  exact ⟨fun h => applyMatches_noop jp tid now (extractJsonMatches chunk) m ws h,
    hrel.1, hrel.2.1, hrel.2.2⟩

/-- Witness for `stdout_progress_safety`: a plain log chunk with no JSON
fragment leaves the document and the write sequence unchanged. -/
theorem stdout_progress_safety_witness :
    applyChunk wJsonParse "download_media" "T" (wExecManifest, []) "hello" =
      (wExecManifest, []) :=
  (stdout_progress_safety wJsonParse wExecManifest "download_media" "T" [] "hello").1
    (by
      intro s hs pd _
      rw [show extractJsonMatches "hello" = [] from by decide] at hs
      cases hs)

/-! ## Properties of `executeWorker` -/

theorem forall₂_map_ident {tid : String} {l₁ l₂ : List Task}
    (h : List.Forall₂ (progressOnlyRel tid) l₁ l₂) :
    l₁.map (fun t => t.id) = l₂.map (fun t => t.id) := by
  induction h with
  | nil => rfl
  | cons hab _ ih => simp only [List.map_cons, hab.1, ih]

theorem chunksFold_rel (jp : String → Option ProgressData) (tid now : String)
    (m₀ : Manifest) :
    ∀ (chunks : List String) (ms : Manifest) (ws : List Manifest),
      ms.fileManifest = m₀.fileManifest →
      List.Forall₂ (progressOnlyRel tid) m₀.tasks ms.tasks →
      ((chunks.foldl (applyChunk jp tid now) (ms, ws)).fst.fileManifest =
        m₀.fileManifest ∧
       List.Forall₂ (progressOnlyRel tid) m₀.tasks
         (chunks.foldl (applyChunk jp tid now) (ms, ws)).fst.tasks) := by
  intro chunks
  induction chunks with
  | nil => intro ms ws hfm hts; exact ⟨hfm, hts⟩
  | cons c chunks ih =>
    intro ms ws hfm hts
    rw [List.foldl_cons]
    have h := applyMatches_rel jp tid now m₀ (extractJsonMatches c) ms ws hfm hts
    exact ih (applyChunk jp tid now (ms, ws) c).fst
      (applyChunk jp tid now (ms, ws) c).snd h.1 h.2.1

/-! ## Claim C4 -/

/-- C4: the Task Executor re-runs the Dependency Evaluator against the
updated document exactly when a worker was configured and its process exited
with code 0; when the evaluator is not re-run (nonzero exit, spawn failure,
or missing worker configuration), the final document's task ids are those of
the input document — no downstream task is queued past a failed stage. -/
theorem deps_rerun_iff_exit_zero (m : Manifest) (t : Task) (outcome : WorkerOutcome)
    (jp : String → Option ProgressData) (now : String) :
    ((executeWorker m t outcome jp now).depsReRun = true ↔
      (lookupWorker t.id).isSome = true ∧
      ∃ so se, outcome = WorkerOutcome.exited 0 so se) ∧
    ((executeWorker m t outcome jp now).depsReRun = false →
      (executeWorker m t outcome jp now).final.tasks.map (fun tk => tk.id) =
        m.tasks.map (fun tk => tk.id)) := by
  cases hlk : lookupWorker t.id with
  | none =>
    unfold executeWorker
    simp only [hlk]
    constructor
    · simp
    · intro _
      exact updateTask_map_id m t.id _ none now
  | some cfg =>
    cases outcome with
    | spawnError msg =>
      unfold executeWorker
      simp only [hlk]
      constructor
      · simp
      · intro _
        rw [updateTask_map_id, updateTask_map_id]
    | exited code so se =>
      unfold executeWorker
      simp only [hlk]
      have hfold := chunksFold_rel jp t.id now
        (updateTask m t.id
          { state := some TaskState.running, startedAt := some (some now),
            percent := some 0 }
          (if t.relatedOutput == "" then none
            else some (t.relatedOutput, FileState.processing)) now)
        so _ [] rfl (progressOnlyRel_refl _ _)
      constructor
      · simp only [WorkerOutcome.exited.injEq]
        constructor
        · intro hc
          refine ⟨rfl, so, se, ?_, rfl, rfl⟩
          simpa using hc
        · rintro ⟨-, so', se', hc, -, -⟩
          simpa using hc
      · intro hc
        simp only [hc, Bool.false_eq_true, if_false]
        rw [updateTask_map_id]
        rw [← forall₂_map_ident hfold.2]
        exact updateTask_map_id m t.id _ _ now

/-- Witness for `deps_rerun_iff_exit_zero`: after a nonzero exit the task
list carries exactly the original ids. -/
theorem deps_rerun_iff_exit_zero_witness :
    (executeWorker wExecManifest wDownloadTask (WorkerOutcome.exited 1 [] [])
        wJsonParse "T").final.tasks.map (fun tk => tk.id) =
      wExecManifest.tasks.map (fun tk => tk.id) :=
  (deps_rerun_iff_exit_zero wExecManifest wDownloadTask
    (WorkerOutcome.exited 1 [] []) wJsonParse "T").2 (by decide)

/-! ## Claim C5 -/

/-- C5: when the worker process exits with a nonzero code, the executor
transitions every task with the executed task's id to state `error` with its
`error` field set to the accumulated stderr text (`jsOrStr` falls back to
the generic `"Worker exited with code N"` exactly when stderr was empty),
and transitions the related artifact, matched by `relatedOutput` type, to
state `error`; no artifact record is added or removed. -/
theorem nonzero_exit_error_capture (m : Manifest) (t : Task) (code : Int)
    (so se : List String) (jp : String → Option ProgressData) (now : String)
    (hcode : code ≠ 0) (hlk : (lookupWorker t.id).isSome = true)
    (hro : t.relatedOutput ≠ "")
    (hex : ∃ tk ∈ m.tasks, tk.id = t.id) :
    (∃ tk' ∈ (executeWorker m t (WorkerOutcome.exited code so se) jp now).final.tasks,
      tk'.id = t.id) ∧
    (∀ tk' ∈ (executeWorker m t (WorkerOutcome.exited code so se) jp now).final.tasks,
      tk'.id = t.id →
      tk'.state = TaskState.error ∧
      tk'.error = some (jsOrStr (some (String.join se))
        ("Worker exited with code " ++ toString code))) ∧
    (∀ f ∈ (executeWorker m t (WorkerOutcome.exited code so se) jp now).final.fileManifest,
      f.type = t.relatedOutput → f.state = FileState.error) ∧
    (executeWorker m t (WorkerOutcome.exited code so se) jp now).final.fileManifest.map
        (fun f => f.type) =
      m.fileManifest.map (fun f => f.type) := by
  cases hlk' : lookupWorker t.id with
  | none => rw [hlk'] at hlk; simp at hlk
  | some cfg =>
    have hc0 : (code == 0) = false := beq_eq_false_iff_ne.mpr hcode
    have hrob : (t.relatedOutput == "") = false := beq_eq_false_iff_ne.mpr hro
    unfold executeWorker
    simp only [hlk', hc0, hrob, Bool.false_eq_true, if_false]
    have hfold := chunksFold_rel jp t.id now
      (updateTask m t.id
        { state := some TaskState.running, startedAt := some (some now),
          percent := some 0 }
        (some (t.relatedOutput, FileState.processing)) now)
      so _ [] rfl (progressOnlyRel_refl _ _)
    refine ⟨?_, ?_, ?_, ?_⟩
    · apply updateTask_mem_exists
      apply exists_id_of_map_id (forall₂_map_ident hfold.2)
      exact updateTask_mem_exists m t.id _ _ now hex
    · intro tk' htk' hid
      obtain ⟨tk, _, _, heq⟩ := updateTask_mem_id _ t.id _ _ now tk' htk' hid
      subst heq
      exact ⟨rfl, rfl⟩
    · intro f hf hty
      exact updateTask_file_state _ t.id _ t.relatedOutput FileState.error now f hf hty
    · rw [updateTask_fm_map_type, hfold.1, updateTask_fm_map_type]

/-- Witness for `nonzero_exit_error_capture`: exit code 1 with stderr
`"disk full"` yields `task.error = "disk full"` and an `error` artifact. -/
theorem nonzero_exit_error_capture_witness :
    ∃ tk' ∈ (executeWorker wExecManifest wDownloadTask
        (WorkerOutcome.exited 1 [] ["disk full"]) wJsonParse "T").final.tasks,
      tk'.id = wDownloadTask.id :=
  (nonzero_exit_error_capture wExecManifest wDownloadTask 1 [] ["disk full"]
    wJsonParse "T" (by decide) (by decide) (by decide)
    ⟨wDownloadTask, by decide, rfl⟩).1

/-! ## Claim C6 -/

/-- C6: when a queued task's id has no `TASK_WORKER_MAP` entry, the executor
immediately transitions that task (and only that task) to state `error` with
the descriptive message, spawns no subprocess, leaves the artifact list
untouched, and returns normally (the promise resolves; the scheduler is not
aborted). -/
theorem missing_worker_config_local_error (m : Manifest) (t : Task)
    (outcome : WorkerOutcome) (jp : String → Option ProgressData) (now : String)
    (hlk : lookupWorker t.id = none)
    (hex : ∃ tk ∈ m.tasks, tk.id = t.id) :
    (executeWorker m t outcome jp now).spawned = false ∧
    (executeWorker m t outcome jp now).resolved = true ∧
    (executeWorker m t outcome jp now).final.fileManifest = m.fileManifest ∧
    (∃ tk' ∈ (executeWorker m t outcome jp now).final.tasks, tk'.id = t.id) ∧
    (∀ tk' ∈ (executeWorker m t outcome jp now).final.tasks, tk'.id = t.id →
      tk'.state = TaskState.error ∧
      tk'.error = some ("No worker configuration found for task " ++ t.id)) ∧
    (∀ tk ∈ m.tasks, tk.id ≠ t.id → tk ∈ (executeWorker m t outcome jp now).final.tasks) := by
  unfold executeWorker
  simp only [hlk]
  refine ⟨trivial, trivial, rfl, ?_, ?_, ?_⟩
  · exact updateTask_mem_exists m t.id _ none now hex
  · intro tk' htk' hid
    obtain ⟨tk, _, _, heq⟩ := updateTask_mem_id m t.id _ none now tk' htk' hid
    subst heq
    exact ⟨rfl, rfl⟩
  · exact updateTask_mem_other m t.id _ none now

/-- Witness for `missing_worker_config_local_error`: the manual `purge_media`
task id has no worker mapping. -/
theorem missing_worker_config_local_error_witness :
    (executeWorker wConfigManifest wUnmappedTask
      (WorkerOutcome.exited 0 [] []) wJsonParse "T").spawned = false :=
  (missing_worker_config_local_error wConfigManifest wUnmappedTask
    (WorkerOutcome.exited 0 [] []) wJsonParse "T" rfl
    ⟨wUnmappedTask, by decide, rfl⟩).1

/-- The post-success dependency re-evaluation never touches an existing task
with the executed task's id: every task with that id in the updated document
was already present before the evaluation. -/
theorem updateTaskDependencies_preserves (m3 : Manifest) (now tid : String)
    (hmem : ∃ tk ∈ m3.tasks, tk.id = tid) :
    (∃ tk' ∈ (updateTaskDependencies m3 now).tasks, tk'.id = tid) ∧
    ∀ tk' ∈ (updateTaskDependencies m3 now).tasks, tk'.id = tid → tk' ∈ m3.tasks := by
  obtain ⟨N, P', _, _, hids, _, hts⟩ := updateTaskDependencies_spec m3 now
  rw [hts]
  constructor
  · obtain ⟨tk, htk, hid⟩ := hmem
    exact ⟨tk, List.mem_append_left _ htk, hid⟩
  · intro tk' htk' hid
    rcases List.mem_append.mp htk' with h | h
    · exact h
    · exfalso
      obtain ⟨dep, hdep, hcdep, hdid⟩ := newTask_from_fired hids tk' h
      obtain ⟨tk, htk, hidtk⟩ := hmem
      have hhas : hasTaskId m3.tasks dep.id = true := by
        unfold hasTaskId
        rw [List.any_eq_true]
        exact ⟨tk, htk, by simp [hidtk, hdid, hid]⟩
      rw [trigger_guard dep hdep m3 hhas] at hcdep
      cases hcdep

/-! ## Claim C2 -/

/-- C2 counterexample to the claim as stated: a worker that reports 100%
progress on stdout and then exits with code 1 leaves the task in state
`error` with `percent = 100`, so `percent = 100` does not imply terminal
state `done`. -/
theorem executor_percent_iff_counterexample :
    ((executeWorker wExecManifest wDownloadTask
        (WorkerOutcome.exited 1 [wChunk] []) wJsonParse "T").final.tasks.map
      (fun tk => (tk.state, tk.percent))) = [(TaskState.error, 100)] := by
  decide

/-- C2 (amended): for every executed task, exactly one of the terminal
states `done`/`error` is reached, and `percent` equals 100 if the terminal
state is `done` (the converse fails: a worker may report 100% progress and
then exit nonzero, leaving an `error` task with `percent = 100`). -/
theorem executor_terminal_exclusive (m : Manifest) (t : Task)
    (outcome : WorkerOutcome) (jp : String → Option ProgressData) (now : String)
    (hex : ∃ tk ∈ m.tasks, tk.id = t.id) :
    (∃ tk' ∈ (executeWorker m t outcome jp now).final.tasks, tk'.id = t.id) ∧
    ∀ tk' ∈ (executeWorker m t outcome jp now).final.tasks, tk'.id = t.id →
      ((tk'.state = TaskState.done ∧ tk'.state ≠ TaskState.error) ∨
       (tk'.state = TaskState.error ∧ tk'.state ≠ TaskState.done)) ∧
      (tk'.state = TaskState.done → tk'.percent = 100) := by
  cases hlk : lookupWorker t.id with
  | none =>
    unfold executeWorker
    simp only [hlk]
    constructor
    · exact updateTask_mem_exists m t.id _ none now hex
    · intro tk' htk' hid
      obtain ⟨tk, _, _, heq⟩ := updateTask_mem_id m t.id _ none now tk' htk' hid
      subst heq
      exact ⟨Or.inr ⟨rfl, by simp [applyUpdates]⟩, by intro h; simp [applyUpdates] at h⟩
  | some cfg =>
    cases outcome with
    | spawnError msg =>
      unfold executeWorker
      simp only [hlk]
      constructor
      · apply updateTask_mem_exists
        exact updateTask_mem_exists m t.id _ _ now hex
      · intro tk' htk' hid
        obtain ⟨tk, _, _, heq⟩ := updateTask_mem_id _ t.id _ _ now tk' htk' hid
        subst heq
        exact ⟨Or.inr ⟨rfl, by simp [applyUpdates]⟩, by intro h; simp [applyUpdates] at h⟩
    | exited code so se =>
      unfold executeWorker
      simp only [hlk]
      have hfold := chunksFold_rel jp t.id now
        (updateTask m t.id
          { state := some TaskState.running, startedAt := some (some now),
            percent := some 0 }
          (if t.relatedOutput == "" then none
            else some (t.relatedOutput, FileState.processing)) now)
        so _ [] rfl (progressOnlyRel_refl _ _)
      have hexPr := exists_id_of_map_id (forall₂_map_ident hfold.2)
        (updateTask_mem_exists m t.id _ _ now hex)
      by_cases hc : (code == 0) = true
      · simp only [hc, if_true]
        have hex3 := updateTask_mem_exists _ t.id
          { state := some TaskState.done, percent := some 100, error := some none }
          (if t.relatedOutput == "" then none
            else some (t.relatedOutput, FileState.ready)) now hexPr
        have hpres := updateTaskDependencies_preserves _ now t.id hex3
        constructor
        · exact hpres.1
        · intro tk' htk' hid
          have htk3 := hpres.2 tk' htk' hid
          obtain ⟨tk, _, _, heq⟩ := updateTask_mem_id _ t.id _ _ now tk' htk3 hid
          subst heq
          exact ⟨Or.inl ⟨rfl, by simp [applyUpdates]⟩, fun _ => rfl⟩
      · simp only [hc, Bool.false_eq_true, if_false]
        constructor
        · exact updateTask_mem_exists _ t.id _ _ now hexPr
        · intro tk' htk' hid
          obtain ⟨tk, _, _, heq⟩ := updateTask_mem_id _ t.id _ _ now tk' htk' hid
          subst heq
          exact ⟨Or.inr ⟨rfl, by simp [applyUpdates]⟩, by intro h; simp [applyUpdates] at h⟩

/-- Witness for `executor_terminal_exclusive`: a successful run of the
concrete download task. -/
theorem executor_terminal_exclusive_witness :
    ∃ tk' ∈ (executeWorker wExecManifest wDownloadTask
        (WorkerOutcome.exited 0 [] []) wJsonParse "T").final.tasks,
      tk'.id = wDownloadTask.id :=
  (executor_terminal_exclusive wExecManifest wDownloadTask
    (WorkerOutcome.exited 0 [] []) wJsonParse "T"
    ⟨wDownloadTask, by decide, rfl⟩).1

/-! ## Claim C7 -/

/-- C7 counterexample to the claim as stated: `calculateDiskSize` adds a
cached recorded size regardless of the artifact's state, so an artifact in
state `error` with `metadata.diskSize = 500` contributes 500, while the
claim's ready-artifacts-only sum (`claimedDiskSize`) yields 0. -/
theorem disk_size_counterexample :
    calculateDiskSize [wErrorFile] "h1" wStat = 500 ∧
    claimedDiskSize [wErrorFile] "h1" wStat = 0 := by
  decide

theorem calculateDiskSize_go (hashId : String) (stat : String → String → Option Int) :
    ∀ (l : List FileItem) (acc : Int),
      List.foldl
        (fun totalSize file =>
          match file.metadata.bind fun md => md.diskSize with
          | some n => totalSize + n
          | none =>
            if file.state == FileState.ready && !(file.path == "") then
              match stat hashId file.path with
              | some sz => totalSize + sz
              | none => totalSize
            else totalSize)
        acc l = acc + (l.map (artifactContribution hashId stat)).sum := by
  intro l
  induction l with
  | nil => intro acc; simp
  | cons f l ih =>
    intro acc
    rw [List.foldl_cons, List.map_cons, List.sum_cons, ih]
    have hstep :
        (match f.metadata.bind fun md => md.diskSize with
         | some n => acc + n
         | none =>
           if f.state == FileState.ready && !(f.path == "") then
             match stat hashId f.path with
             | some sz => acc + sz
             | none => acc
           else acc) = acc + artifactContribution hashId stat f := by
      unfold artifactContribution
      cases f.metadata.bind fun md => md.diskSize with
      | some n => rfl
      | none =>
        by_cases hc : (f.state == FileState.ready && !(f.path == "")) = true
        · simp only [hc, if_true]
          cases stat hashId f.path with
          | some sz => simp [Option.getD]
          | none => simp [Option.getD]
        · rw [Bool.not_eq_true] at hc
          simp [hc]
    rw [hstep]
    ring

/-- C7 (amended): the aggregate on-disk size is the sum over all artifacts
of their contribution: a cached recorded size counts regardless of the
artifact's state; without a cached size, only a `ready` artifact with a
nonempty path contributes, via the live filesystem stat (0 when the file is
absent); all other artifacts contribute nothing. -/
theorem disk_size_sum_spec (fileManifest : List FileItem) (hashId : String)
    (stat : String → String → Option Int) :
    calculateDiskSize fileManifest hashId stat =
      (fileManifest.map (artifactContribution hashId stat)).sum := by
  unfold calculateDiskSize
  rw [calculateDiskSize_go hashId stat fileManifest 0]
  ring

/-! ## Properties of `updateFirst` and claim C8 -/

theorem updateFirst_length {α : Type} (p : α → Bool) (g : α → α) :
    ∀ l : List α, (updateFirst p g l).length = l.length := by
  intro l
  induction l with
  | nil => rfl
  | cons x l ih =>
    unfold updateFirst
    by_cases hx : p x = true <;> simp [hx, ih]

theorem updateFirst_map {α β : Type} (p : α → Bool) (g : α → α) (h : α → β)
    (hc : ∀ a, h (g a) = h a) :
    ∀ l : List α, (updateFirst p g l).map h = l.map h := by
  intro l
  induction l with
  | nil => rfl
  | cons x l ih =>
    unfold updateFirst
    by_cases hx : p x = true <;> simp [hx, ih, hc]

theorem updateFirst_map_type (p : FileItem → Bool) (g : FileItem → FileItem)
    (hg : ∀ a, (g a).type = a.type) (l : List FileItem) :
    (updateFirst p g l).map (fun x => x.type) = l.map (fun x => x.type) :=
  updateFirst_map p g _ hg l

theorem updateFirst_of_find? {α : Type} (p : α → Bool) (g : α → α) :
    ∀ (l : List α) (a : α), l.find? p = some a → g a ∈ updateFirst p g l := by
  intro l
  induction l with
  | nil => intro a h; cases h
  | cons x l ih =>
    intro a h
    rw [List.find?_cons] at h
    unfold updateFirst
    by_cases hx : p x = true
    · simp only [hx] at h ⊢
      rw [Option.some.injEq] at h
      subst h
      exact List.mem_cons_self _ _
    · rw [Bool.not_eq_true] at hx
      simp only [hx] at h ⊢
      exact List.mem_cons_of_mem _ (ih a h)

theorem find?_updateFirst {α : Type} (p q : α → Bool) (g : α → α)
    (hpres : ∀ x, p (g x) = false) :
    ∀ (l : List α) (a : α), l.find? p = some a → q a = false →
      (updateFirst q g l).find? p = some a := by
  intro l
  induction l with
  | nil => intro a h; cases h
  | cons x l ih =>
    intro a h hqa
    rw [List.find?_cons] at h
    unfold updateFirst
    by_cases hq : q x = true
    · simp only [hq, if_true]
      by_cases hp : p x = true
      · simp only [hp] at h
        rw [Option.some.injEq] at h
        subst h
        rw [hq] at hqa
        cases hqa
      · rw [Bool.not_eq_true] at hp
        simp only [hp] at h
        rw [List.find?_cons, hpres x]
        exact h
    · rw [Bool.not_eq_true] at hq
      simp only [hq, Bool.false_eq_true, if_false]
      by_cases hp : p x = true
      · simp only [hp] at h ⊢
        rw [List.find?_cons, hp]
        exact h
      · rw [Bool.not_eq_true] at hp
        simp only [hp] at h
        rw [List.find?_cons, hp]
        exact ih a h hqa

/-! ## Claim C8 -/

/-- C8: purging a `ready` primary media artifact sets its state to `purged`
and its recorded `diskSize` to 0, adds `purgedAt` and `purgedReason` fields,
retains the prior metadata fields `quality`, `mediaType` (when present and
nonempty, as non-default enum values always are), `duration` and
`dimensions`, and never removes any record from `fileManifest` (the list
keeps its length and its types, in order). -/
theorem purge_preserves_metadata (m : Manifest) (opts : PurgeOptions) (now : String)
    (mediaOnDisk thumbOnDisk : Bool) (f : FileItem) (m' : Manifest)
    (hfind : m.fileManifest.find?
      (fun g => g.type == "original_media" && g.state == FileState.ready) = some f)
    (hp : purgeContent m opts now mediaOnDisk thumbOnDisk = some m') :
    m'.fileManifest.length = m.fileManifest.length ∧
    m'.fileManifest.map (fun g => g.type) = m.fileManifest.map (fun g => g.type) ∧
    ∃ f' ∈ m'.fileManifest, f'.type = "original_media" ∧ f'.path = f.path ∧
      f'.state = FileState.purged ∧
      ∃ md, f'.metadata = some md ∧
        md.diskSize = some 0 ∧ md.purgedAt = some now ∧
        md.purgedReason = some opts.reason ∧
        (∀ q, (f.metadata.bind fun mo => mo.quality) = some q → q ≠ "" →
          md.quality = some q) ∧
        (∀ mt, (f.metadata.bind fun mo => mo.mediaType) = some mt → mt ≠ "" →
          md.mediaType = some mt) ∧
        (∀ d, (f.metadata.bind fun mo => mo.duration) = some d →
          md.duration = some d) ∧
        (∀ dm, (f.metadata.bind fun mo => mo.dimensions) = some dm →
          md.dimensions = some dm) := by
  unfold purgeContent at hp
  simp only [hfind] at hp
  rw [Option.some.injEq] at hp
  subst hp
  have hthumbtype : ∀ g : FileItem,
      ({ g with
          state := FileState.purged,
          metadata := some
            { g.metadata.getD emptyMetadata with
              purgedAt := some now,
              purgedReason := some opts.reason } } : FileItem).type
        = g.type := fun _ => rfl
  have hmediapres : ∀ x : FileItem,
      ((fun g => g.type == "original_media" && g.state == FileState.ready)
        ({ x with
            state := FileState.purged,
            metadata := some
              { x.metadata.getD emptyMetadata with
                purgedAt := some now,
                purgedReason := some opts.reason } } : FileItem))
        = false := by
    intro x
    simp
  have hfind1 :
      (if mediaOnDisk && !opts.keepThumbnail && thumbOnDisk then
        updateFirst (fun g => g.type == "original_thumbnail")
          (fun g =>
            { g with
              state := FileState.purged,
              metadata := some
                { g.metadata.getD emptyMetadata with
                  purgedAt := some now,
                  purgedReason := some opts.reason } })
          m.fileManifest
      else m.fileManifest).find?
        (fun g => g.type == "original_media" && g.state == FileState.ready) = some f := by
    by_cases hdisk : (mediaOnDisk && !opts.keepThumbnail && thumbOnDisk) = true
    · simp only [hdisk, if_true]
      refine find?_updateFirst _ _ _ hmediapres m.fileManifest f hfind ?_
      have hpf := List.find?_some hfind
      rw [Bool.and_eq_true] at hpf
      have htyf : f.type = "original_media" := by simpa using hpf.1
      simp [htyf]
    · rw [Bool.not_eq_true] at hdisk
      simp only [hdisk, Bool.false_eq_true, if_false]
      exact hfind
  have hpf := List.find?_some hfind
  rw [Bool.and_eq_true] at hpf
  have htyf : f.type = "original_media" := by simpa using hpf.1
  refine ⟨?_, ?_, ?_⟩
  · dsimp only
    rw [updateFirst_length]
    by_cases hdisk : (mediaOnDisk && !opts.keepThumbnail && thumbOnDisk) = true
    · simp only [hdisk, if_true]
      rw [updateFirst_length]
    · rw [Bool.not_eq_true] at hdisk
      simp only [hdisk, Bool.false_eq_true, if_false]
  · dsimp only
    by_cases hdisk : (mediaOnDisk && !opts.keepThumbnail && thumbOnDisk) = true
    · simp only [hdisk, if_true]
      rw [updateFirst_map_type]
      rw [updateFirst_map_type]
      all_goals exact fun a => rfl
    · rw [Bool.not_eq_true] at hdisk
      simp only [hdisk, Bool.false_eq_true, if_false]
      rw [updateFirst_map_type]
      exact fun a => rfl
  · refine ⟨_, updateFirst_of_find? _ _ _ f hfind1, htyf, rfl, rfl, _, rfl,
      rfl, rfl, rfl, ?_, ?_, ?_, ?_⟩
    · intro q hq hqne
      cases hmo : f.metadata with
      | none => rw [hmo] at hq; cases hq
      | some mo =>
        rw [hmo] at hq
        simp only [Option.bind] at hq
        dsimp only [Option.getD]
        rw [hq]
        unfold jsOrStr
        dsimp only
        rw [beq_eq_false_iff_ne.mpr hqne]
        simp
    · intro mt hmt hmtne
      cases hmo : f.metadata with
      | none => rw [hmo] at hmt; cases hmt
      | some mo =>
        rw [hmo] at hmt
        simp only [Option.bind] at hmt
        dsimp only [Option.getD]
        rw [hmt]
        unfold jsOrStr
        dsimp only
        rw [beq_eq_false_iff_ne.mpr hmtne]
        simp
    · intro d hd
      cases hmo : f.metadata with
      | none => rw [hmo] at hd; cases hd
      | some mo =>
        rw [hmo] at hd
        simp only [Option.bind] at hd
        dsimp only [Option.getD]
        rw [hd]
        unfold jsOrInt
        dsimp only
        by_cases hz : (d == 0) = true
        · simp only [hz, if_true]
          have hz0 : d = 0 := by simpa using hz
          rw [hz0]
        · rw [Bool.not_eq_true] at hz
          simp only [hz, Bool.false_eq_true, if_false]
    · intro dm hdm
      cases hmo : f.metadata with
      | none => rw [hmo] at hdm; cases hdm
      | some mo =>
        rw [hmo] at hdm
        simp only [Option.bind] at hdm
        dsimp only [Option.getD]
        rw [hdm]

/-- Witness for `purge_preserves_metadata`: purging the concrete document
keeps the artifact list's length. -/
theorem purge_preserves_metadata_witness :
    wPurged.fileManifest.length = wPurgeManifest.fileManifest.length :=
  (purge_preserves_metadata wPurgeManifest wPurgeOptions "T" true true
    wReadyMediaItem wPurged (by decide) (by decide)).1

end Yanghoo
